import Mathlib

/-
  Verification of the torrant BitTorrent client core against its
  natural-language specification.

  Shallow embedding conventions:
  - A byte is a `Nat` (values < 256 where it matters); a buffer is a `List Nat`.
  - `bytes::BytesMut` read cursors are modelled by returning the remaining
    buffer alongside the decode outcome: consuming k bytes = dropping k
    elements from the front.
  - Rust functions that can panic (for example `Buf::get_u32` with fewer than
    4 bytes remaining, or `usize` subtraction underflow) are modelled with an
    explicit `panicked` outcome.
-/

namespace Torrant

abbrev Bytes := List Nat

/-- Big-endian value of a byte list (as `u32`/`u16` reads do). -/
def beVal (l : Bytes) : Nat := l.foldl (fun a b => a * 256 + b) 0

/-- Bytes written by `BufMut::put_u32` (big-endian). The `% 256` on every
byte makes this also model the `as u32` truncating cast the source applies
to `usize` lengths before writing. -/
def putU32 (n : Nat) : Bytes :=
  [n / 2 ^ 24 % 256, n / 2 ^ 16 % 256, n / 2 ^ 8 % 256, n % 256]

/-- Model of `bytes::Buf::get_u32`: reads 4 big-endian bytes and advances,
`none` when fewer than 4 bytes remain (the Rust call panics there). -/
def getU32? (l : Bytes) : Option (Nat × Bytes) :=
  if 4 ≤ l.length then some (beVal (l.take 4), l.drop 4) else none

/-- ASCII bytes of a string literal. -/
def strB (s : String) : Bytes := s.toList.map Char.toNat

/- ===================== src/handshake.rs ===================== -/

/-- Source constant `PROTOCOL_NAME: &[u8] = b"BitTorrentprotocol"`.
Note: the source byte string has 18 bytes (no space). -/
def PROTOCOL_NAME : Bytes := strB "BitTorrentprotocol"

/-- The 19-byte ASCII protocol name as the spec states it. -/
def protocolName19 : Bytes := strB "BitTorrent protocol"

/-- Model of `HandshakeError` (source constructors `WrongPrefix(u8)` and
`NoProtocolText`; the IO wrapper variant is not reachable in the codec). -/
inductive HandshakeErrorM
  | wrongLenByte (b : Nat)
  | noProtocolText
  deriving DecidableEq, Repr

/-- Model of `Handshake { hash: [u8; 20], peer_id: [u8; 20] }`. -/
structure HandshakeM where
  hash : Bytes
  peerId : Bytes
  deriving DecidableEq, Repr

inductive HsOutcome
  | needMore
  | err (e : HandshakeErrorM)
  | ok (h : HandshakeM)
  deriving DecidableEq, Repr

/-- Model of `ReadExactExt::read_exact_arr::<N>` for `BytesMut`
(src/util.rs): `self.get(0..N)` reads through the `[u8]` deref WITHOUT
advancing the cursor, so the caller sees the same remaining buffer. -/
def readExactArr (n : Nat) (src : Bytes) : Option Bytes :=
  if src.length < n then none else some (src.take n)

/-- Model of `HandshakeCodec::decode`. Returns the outcome together with the
remaining buffer. Only `get_u8` advances the cursor; every `read_exact_arr`
call reads from the post-`get_u8` position without consuming. -/
def hsDecode (src : Bytes) : HsOutcome × Bytes :=
  if src.length < 68 then (.needMore, src)
  else
    match src with
    | [] => (.needMore, src)
    | lenByte :: rest =>
      if lenByte ≠ 19 then (.err (.wrongLenByte lenByte), rest)
      else
        match readExactArr 19 rest with
        | none => (.needMore, rest)
        | some text =>
          if text ≠ PROTOCOL_NAME then (.err .noProtocolText, rest)
          else
            match readExactArr 8 rest with
            | none => (.needMore, rest)
            | some _ =>
              match readExactArr 20 rest with
              | none => (.needMore, rest)
              | some hash =>
                match readExactArr 20 rest with
                | none => (.needMore, rest)
                | some peerId => (.ok ⟨hash, peerId⟩, rest)

/-- Model of `HandshakeCodec::encode`: length byte 19, `PROTOCOL_NAME`,
8 zero bytes, hash, peer id. -/
def hsEncode (h : HandshakeM) : Bytes :=
  19 :: PROTOCOL_NAME ++ List.replicate 8 0 ++ h.hash ++ h.peerId

/-- The 68-byte handshake layout as the spec states it:
`[19] ++ "BitTorrent protocol" ++ 8 reserved bytes ++ hash ++ peer id`. -/
def specHandshakeLayout (hash peerId : Bytes) : Bytes :=
  19 :: protocolName19 ++ List.replicate 8 0 ++ hash ++ peerId

/- ===================== src/peer.rs ===================== -/

/-- Model of `PeerError` (the IO wrapper variant is not reachable in the
codec logic). -/
inductive PeerErrorM
  | invalidMessageId (b : Nat)
  | incorrectMessageLen (n : Nat)
  deriving DecidableEq, Repr

/-- Model of `PeerMessageKind`. -/
inductive PeerMessageKind
  | choke | unchoke | interested | notInterested
  | haveK | bitfield | request | piece | cancel
  deriving DecidableEq, Repr

/-- Model of `PeerMessageKind::msg_len`. -/
def PeerMessageKind.msgLen : PeerMessageKind → Option Nat
  | .choke => some 1
  | .unchoke => some 1
  | .interested => some 1
  | .notInterested => some 1
  | .haveK => some 5
  | .request => some 13
  | .cancel => some 13
  | .bitfield => none
  | .piece => none

/-- Model of `TryFrom<u8> for PeerMessageKind`. -/
def peerMessageKindOfByte (b : Nat) : Option PeerMessageKind :=
  if b = 0 then some .choke
  else if b = 1 then some .unchoke
  else if b = 2 then some .interested
  else if b = 3 then some .notInterested
  else if b = 4 then some .haveK
  else if b = 5 then some .bitfield
  else if b = 6 then some .request
  else if b = 7 then some .piece
  else if b = 8 then some .cancel
  else none

/-- Model of `PeerMessage`. -/
inductive PeerMessage
  | choke | unchoke | interested | notInterested
  | havePiece (piece : Nat)
  | bitfield (bits : Bytes)
  | request (index beginOff length : Nat)
  | piece (index beginOff : Nat) (block : Bytes)
  | cancel (index beginOff length : Nat)
  | keepAlive
  deriving DecidableEq, Repr

/-- Model of `PeerMessage::msg_len`. -/
def PeerMessage.msgLen : PeerMessage → Nat
  | .keepAlive => 0
  | .choke => 1
  | .unchoke => 1
  | .interested => 1
  | .notInterested => 1
  | .havePiece _ => 5
  | .request _ _ _ => 13
  | .piece _ _ p => 9 + p.length
  | .cancel _ _ _ => 13
  | .bitfield x => 1 + x.length

inductive PeerDecodeOutcome
  | ok (m : PeerMessage)
  | needMore
  | err (e : PeerErrorM)
  | panicked
  deriving DecidableEq, Repr

/-- Body of `PeerCodec::decode` after the id byte was read and validated
and a fixed-length mismatch was ruled out. `s` is the buffer after the id
byte. Buffer reads mirror the source: `get_u32` advances (or panics), the
Bitfield branch uses a slice `get` that reads WITHOUT advancing, and the
Piece branch computes `len as usize - 9`, which underflows when `len < 9`
(modelled as a panic, covering both the debug-build overflow panic and the
release-build huge `Vec::with_capacity`). -/
def peerDecodeBody (k : PeerMessageKind) (len : Nat) (s : Bytes) :
    PeerDecodeOutcome × Bytes :=
  match k with
  | .choke => (.ok .choke, s)
  | .unchoke => (.ok .unchoke, s)
  | .interested => (.ok .interested, s)
  | .notInterested => (.ok .notInterested, s)
  | .haveK =>
    match getU32? s with
    | none => (.panicked, s)
    | some (p, s1) => (.ok (.havePiece p), s1)
  | .bitfield =>
    if len - 1 ≤ s.length then (.ok (.bitfield (s.take (len - 1))), s)
    else (.panicked, s)
  | .request =>
    match getU32? s with
    | none => (.panicked, s)
    | some (i, s1) =>
      match getU32? s1 with
      | none => (.panicked, s1)
      | some (b, s2) =>
        match getU32? s2 with
        | none => (.panicked, s2)
        | some (l, s3) => (.ok (.request i b l), s3)
  | .piece =>
    match getU32? s with
    | none => (.panicked, s)
    | some (i, s1) =>
      match getU32? s1 with
      | none => (.panicked, s1)
      | some (b, s2) =>
        if len < 9 then (.panicked, s2)
        else (.ok (.piece i b (s2.take (len - 9))), s2.drop (len - 9))
  | .cancel =>
    match getU32? s with
    | none => (.panicked, s)
    | some (i, s1) =>
      match getU32? s1 with
      | none => (.panicked, s1)
      | some (b, s2) =>
        match getU32? s2 with
        | none => (.panicked, s2)
        | some (l, s3) => (.ok (.cancel i b l), s3)

/-- Steps of `PeerCodec::decode` after the length prefix has been read
(and therefore consumed) from the buffer. -/
def peerDecodeRest (len : Nat) (s1 : Bytes) : PeerDecodeOutcome × Bytes :=
  if len = 0 then (.ok .keepAlive, s1)
  else if s1.length < len then (.needMore, s1)
  else
    match s1 with
    | [] => (.panicked, s1)
    | id :: s2 =>
      match peerMessageKindOfByte id with
      | none => (.err (.invalidMessageId id), s2)
      | some k =>
        match k.msgLen with
        | some m =>
          if len = m then peerDecodeBody k len s2
          else (.err (.incorrectMessageLen len), s2)
        | none => peerDecodeBody k len s2

/-- Model of `PeerCodec::decode`. The codec state is unused by decode.
Note the source checks only `has_remaining()` (at least one byte) before
calling `get_u32`, which panics when 1 to 3 bytes are buffered, and the
length prefix is consumed before the payload-availability check. -/
def peerDecode (src : Bytes) : PeerDecodeOutcome × Bytes :=
  if src.isEmpty then (.needMore, src)
  else
    match getU32? src with
    | none => (.panicked, src)
    | some (len, s1) => peerDecodeRest len s1

/-- Model of `PeerCodec::encode`: 4-byte big-endian length from
`PeerMessage::msg_len`, then (except KeepAlive) the id byte and the
field bytes in source order. -/
def peerEncode (m : PeerMessage) : Bytes :=
  putU32 m.msgLen ++
    match m with
    | .keepAlive => []
    | .choke => [0]
    | .unchoke => [1]
    | .interested => [2]
    | .notInterested => [3]
    | .havePiece p => 4 :: putU32 p
    | .bitfield bits => 5 :: bits
    | .request i b l => 6 :: (putU32 i ++ putU32 b ++ putU32 l)
    | .piece i b blk => 7 :: (putU32 i ++ putU32 b ++ blk)
    | .cancel i b l => 8 :: (putU32 i ++ putU32 b ++ putU32 l)

/-- Wellformedness of a `PeerMessage` value as its Rust type dictates:
`u32` fields are below `2 ^ 32`, and lengths written into the `u32` length
prefix fit in 32 bits. -/
def PeerMessage.wf : PeerMessage → Prop
  | .havePiece p => p < 2 ^ 32
  | .bitfield bits => 1 + bits.length < 2 ^ 32
  | .request i b l => i < 2 ^ 32 ∧ b < 2 ^ 32 ∧ l < 2 ^ 32
  | .piece i b blk => i < 2 ^ 32 ∧ b < 2 ^ 32 ∧ 9 + blk.length < 2 ^ 32
  | .cancel i b l => i < 2 ^ 32 ∧ b < 2 ^ 32 ∧ l < 2 ^ 32
  | _ => True

/- ===================== bencode (serde_bencode serialization) ========== -/

/-- Bencoded values: integers, byte strings, lists and dictionaries. -/
inductive Bencode
  | int (n : Int)
  | bstr (s : Bytes)
  | list (xs : List Bencode)
  | dict (es : List (Bytes × Bencode))
  deriving Repr

/-- ASCII decimal digits of a natural number. -/
def natAscii (n : Nat) : Bytes := (Nat.repr n).toList.map Char.toNat

/-- ASCII decimal digits of an integer (with a leading minus sign when
negative). -/
def intAscii (n : Int) : Bytes := (Int.repr n).toList.map Char.toNat

mutual

/-- Bencode serialization: `i<int>e`, `<len>:<bytes>`, `l...e`, `d...e`.
Dictionary entries are emitted in the order given. -/
def benSer : Bencode → Bytes
  | .int n => 105 :: intAscii n ++ [101]
  | .bstr s => natAscii s.length ++ 58 :: s
  | .list xs => 108 :: benSerList xs ++ [101]
  | .dict es => 100 :: benSerDict es ++ [101]

def benSerList : List Bencode → Bytes
  | [] => []
  | x :: xs => benSer x ++ benSerList xs

def benSerDict : List (Bytes × Bencode) → Bytes
  | [] => []
  | e :: es => natAscii e.1.length ++ 58 :: e.1 ++ benSer e.2 ++ benSerDict es

end

/-- Lexicographic comparison of byte-string keys. -/
def keyLeB : Bytes → Bytes → Bool
  | [], _ => true
  | _ :: _, [] => false
  | a :: as, b :: bs => if a < b then true else if b < a then false else keyLeB as bs

def insertEntry (e : Bytes × Bencode) :
    List (Bytes × Bencode) → List (Bytes × Bencode)
  | [] => [e]
  | f :: fs => if keyLeB e.1 f.1 then e :: f :: fs else f :: insertEntry e fs

/-- Dictionary entries sorted by key, as the serde_bencode serializer does
before writing a map (bencode requires sorted dictionary keys). -/
def sortEntries : List (Bytes × Bencode) → List (Bytes × Bencode)
  | [] => []
  | e :: es => insertEntry e (sortEntries es)

/-- Lookup in a bencode dictionary by key. -/
def dictLookup (es : List (Bytes × Bencode)) (k : Bytes) : Option Bencode :=
  match es with
  | [] => none
  | e :: es => if e.1 = k then some e.2 else dictLookup es k

/- ===================== SHA-1 ===================== -/

/-- Big-endian byte representation of `v` in `w` bytes. -/
def beBytes : Nat → Nat → Bytes
  | 0, _ => []
  | w + 1, v => beBytes w (v / 256) ++ [v % 256]

/-- Little-endian byte representation of `v` in `w` bytes. -/
def leBytes : Nat → Nat → Bytes
  | 0, _ => []
  | w + 1, v => v % 256 :: leBytes w (v / 256)

/-- Split a byte list into chunks of `n` bytes (fuelled helper). -/
def chunksGo (n : Nat) : Nat → Bytes → List Bytes
  | 0, _ => []
  | _, [] => []
  | fuel + 1, l => l.take n :: chunksGo n fuel (l.drop n)

def chunksOf (n : Nat) (l : Bytes) : List Bytes := chunksGo n l.length l

/-- 32-bit left rotation. -/
def rotl32 (x n : Nat) : Nat := ((x <<< n) ||| (x >>> (32 - n))) % 2 ^ 32

def sha1F (i b c d : Nat) : Nat :=
  if i < 20 then (b &&& c) ||| ((0xFFFFFFFF ^^^ b) &&& d)
  else if i < 40 then b ^^^ c ^^^ d
  else if i < 60 then (b &&& c) ||| (b &&& d) ||| (c &&& d)
  else b ^^^ c ^^^ d

def sha1K (i : Nat) : Nat :=
  if i < 20 then 0x5A827999
  else if i < 40 then 0x6ED9EBA1
  else if i < 60 then 0x8F1BBCDC
  else 0xCA62C1D6

structure Sha1State where
  a : Nat
  b : Nat
  c : Nat
  d : Nat
  e : Nat
  deriving DecidableEq, Repr

/-- Message-schedule extension: appends `fuel` further words, each the
1-rotation of the xor of the words 3, 8, 14 and 16 positions back. -/
def sha1Extend : Nat → List Nat → List Nat
  | 0, w => w
  | fuel + 1, w =>
    let L := w.length
    let t := rotl32 ((w.getD (L - 3) 0) ^^^ (w.getD (L - 8) 0) ^^^
      (w.getD (L - 14) 0) ^^^ (w.getD (L - 16) 0)) 1
    sha1Extend fuel (w ++ [t])

def sha1Rounds : List Nat → Nat → Sha1State → Sha1State
  | [], _, st => st
  | w :: ws, i, st =>
    let t := (rotl32 st.a 5 + sha1F i st.b st.c st.d + st.e + sha1K i + w) % 2 ^ 32
    sha1Rounds ws (i + 1) ⟨t, st.a, rotl32 st.b 30, st.c, st.d⟩

def sha1Block (h : Sha1State) (block : Bytes) : Sha1State :=
  let w80 := sha1Extend 64 ((chunksOf 4 block).map beVal)
  let st := sha1Rounds w80 0 h
  ⟨(h.a + st.a) % 2 ^ 32, (h.b + st.b) % 2 ^ 32, (h.c + st.c) % 2 ^ 32,
    (h.d + st.d) % 2 ^ 32, (h.e + st.e) % 2 ^ 32⟩

/-- SHA-1 padding: `0x80`, zeros to 56 mod 64, then the 64-bit big-endian
bit length. -/
def sha1Pad (m : Bytes) : Bytes :=
  m ++ 128 :: List.replicate ((119 - m.length % 64) % 64) 0 ++
    beBytes 8 (8 * m.length % 2 ^ 64)

def sha1Init : Sha1State :=
  ⟨0x67452301, 0xEFCDAB89, 0x98BADCFE, 0x10325476, 0xC3D2E1F0⟩

/-- SHA-1 digest (20 bytes) of a byte list. -/
def sha1 (m : Bytes) : Bytes :=
  let h := (chunksOf 64 (sha1Pad m)).foldl sha1Block sha1Init
  beBytes 4 h.a ++ beBytes 4 h.b ++ beBytes 4 h.c ++ beBytes 4 h.d ++ beBytes 4 h.e

/- ===================== src/metainfo.rs ===================== -/

/-- Model of `metainfo::File { length: usize, path: Vec<String> }`. -/
structure MFile where
  length : Nat
  path : List Bytes
  deriving DecidableEq, Repr

/-- Model of the flattened untagged `metainfo::Key` enum. -/
inductive MKey
  | keyLength (length : Nat)
  | keyFiles (files : List MFile)
  deriving DecidableEq, Repr

/-- Model of `metainfo::Info`. `pieces` is the list of 20-byte piece
hashes (`Pieces(Vec<Piece>)` after the custom deserializer split the raw
byte string into 20-byte chunks). -/
structure MInfo where
  name : Bytes
  pieceLength : Nat
  pieces : List Bytes
  key : MKey
  deriving DecidableEq, Repr

def optionsAll {α : Type} : List (Option α) → Option (List α)
  | [] => some []
  | none :: _ => none
  | some x :: xs =>
    match optionsAll xs with
    | none => none
    | some ys => some (x :: ys)

/-- Deserialization of one `metainfo::File` from a bencode dictionary:
`length` a non-negative integer, `path` a list of byte strings; unknown
keys are ignored (serde default). -/
def parseMFile : Bencode → Option MFile
  | .dict es =>
    match dictLookup es (strB "length"), dictLookup es (strB "path") with
    | some (.int n), some (.list ps) =>
      if 0 ≤ n then
        match optionsAll (ps.map fun p => match p with
          | .bstr s => some s
          | _ => none) with
        | some paths => some ⟨n.toNat, paths⟩
        | none => none
      else none
    | _, _ => none
  | _ => none

/-- Deserialization of `metainfo::Info` from a bencode dictionary, as
serde_bencode with the derived impl does: fields `name`, `piece length`
and `pieces` (the custom deserializer rejects a byte string whose length
is not a multiple of 20), plus the flattened untagged `Key` enum, whose
variants are tried in declaration order (`length` first, then `files`).
Unknown keys are ignored; in particular a `private` key in the source
dictionary is dropped, because the struct has no such field. -/
def parseMInfo : Bencode → Option MInfo
  | .dict es =>
    match dictLookup es (strB "name"), dictLookup es (strB "piece length"),
        dictLookup es (strB "pieces") with
    | some (.bstr name), some (.int pl), some (.bstr pieces) =>
      if 0 ≤ pl ∧ pieces.length % 20 = 0 then
        match dictLookup es (strB "length") with
        | some (.int n) =>
          if 0 ≤ n then some ⟨name, pl.toNat, chunksOf 20 pieces, .keyLength n.toNat⟩
          else none
        | _ =>
          match dictLookup es (strB "files") with
          | some (.list fs) =>
            match optionsAll (fs.map parseMFile) with
            | some files => some ⟨name, pl.toNat, chunksOf 20 pieces, .keyFiles files⟩
            | none => none
          | _ => none
      else none
    | _, _, _ => none
  | _ => none

def MFile.toBen (f : MFile) : Bencode :=
  .dict (sortEntries [(strB "length", .int f.length),
    (strB "path", .list (f.path.map Bencode.bstr))])

def MKey.benEntry : MKey → (Bytes × Bencode)
  | .keyLength n => (strB "length", .int n)
  | .keyFiles fs => (strB "files", .list (fs.map MFile.toBen))

/-- Model of `serde_bencode::to_bytes(&Info)`: the struct (serialized
through the map path because of the flattened key, with keys sorted)
holding exactly the fields `name`, `piece length`, `pieces` (the 20-byte
hashes re-joined by the custom serializer) and the `Key` entry. -/
def serInfo (i : MInfo) : Bytes :=
  benSer (.dict (sortEntries [(strB "name", .bstr i.name),
    (strB "piece length", .int i.pieceLength),
    (strB "pieces", .bstr i.pieces.flatten),
    i.key.benEntry]))

/-- Model of `Info::info_hash`: SHA-1 of the serde_bencode
re-serialization of the struct. -/
def infoHash (i : MInfo) : Bytes := sha1 (serInfo i)

/-- Model of `Info::total_bytes`: the source returns
`self.piece_length * self.pieces.count()`. -/
def MInfo.totalBytes (i : MInfo) : Nat := i.pieceLength * i.pieces.length

/-- The quantity the spec says `total_bytes()` returns: the sum of the
constituent file lengths (single `length` in single-file mode, sum over
`files` in multi-file mode; compare `Info::length` in src/info.rs). -/
def MInfo.sumFileLengths (i : MInfo) : Nat :=
  match i.key with
  | .keyLength n => n
  | .keyFiles fs => (fs.map MFile.length).sum

/- ===================== JSON (model of serde_json parsing) ============= -/

/-- JSON values. Numbers keep their sign, integer part and a flag telling
whether a fraction or exponent part was present; string contents keep the
raw bytes between the quotes with escape sequences validated but not
decoded (no theorem below depends on escaped contents). -/
inductive Json
  | null
  | bool (b : Bool)
  | num (neg : Bool) (intPart : Nat) (nonIntegral : Bool)
  | str (s : Bytes)
  | arr (xs : List Json)
  | obj (ms : List (Bytes × Json))
  deriving Repr

/-- Drop leading JSON whitespace (space, tab, LF, CR). -/
def jsonWs (l : Bytes) : Bytes :=
  match l with
  | c :: rest => if c = 32 ∨ c = 9 ∨ c = 10 ∨ c = 13 then jsonWs rest else l
  | [] => []

def isJsonDigit (c : Nat) : Bool := 48 ≤ c ∧ c ≤ 57

def isHexDigit (c : Nat) : Bool :=
  (48 ≤ c ∧ c ≤ 57) ∨ (97 ≤ c ∧ c ≤ 102) ∨ (65 ≤ c ∧ c ≤ 70)

/-- Span of decimal digits at the front of the buffer. -/
def jpDigits : Bytes → (Bytes × Bytes)
  | [] => ([], [])
  | c :: rest =>
    if isJsonDigit c then
      let (d, r) := jpDigits rest
      (c :: d, r)
    else ([], c :: rest)

/-- Scan of a JSON string body after the opening quote: content bytes and
the remainder after the closing quote. Escapes are validated
(`\" \\ \/ \b \f \n \r \t \uXXXX`); control bytes below 0x20 are
rejected, as serde_json does. -/
def jpString : Nat → Bytes → Option (Bytes × Bytes)
  | 0, _ => none
  | _ + 1, [] => none
  | fuel + 1, c :: rest =>
    if c = 34 then some ([], rest)
    else if c = 92 then
      match rest with
      | [] => none
      | e :: rest2 =>
        if e = 34 ∨ e = 92 ∨ e = 47 ∨ e = 98 ∨ e = 102 ∨ e = 110 ∨ e = 114 ∨ e = 116 then
          match jpString fuel rest2 with
          | some (s, r) => some (c :: e :: s, r)
          | none => none
        else if e = 117 then
          match rest2 with
          | h1 :: h2 :: h3 :: h4 :: rest3 =>
            if isHexDigit h1 ∧ isHexDigit h2 ∧ isHexDigit h3 ∧ isHexDigit h4 then
              match jpString fuel rest3 with
              | some (s, r) => some (c :: e :: h1 :: h2 :: h3 :: h4 :: s, r)
              | none => none
            else none
          | _ => none
        else none
    else if c < 32 then none
    else
      match jpString fuel rest with
      | some (s, r) => some (c :: s, r)
      | none => none

/-- Lexing of a JSON number: optional minus, an integer part with no
leading zero (a lone `0` is allowed), optional fraction and exponent. -/
def jpNumber (l : Bytes) : Option (Json × Bytes) :=
  let (neg, l1) :=
    match l with
    | 45 :: r => (true, r)
    | _ => (false, l)
  match jpDigits l1 with
  | ([], _) => none
  | (d :: ds, r1) =>
    if d = 48 ∧ ds ≠ [] then none
    else
      let v := (d :: ds).foldl (fun a c => a * 10 + (c - 48)) 0
      let (hasFrac, r2) :=
        match r1 with
        | 46 :: r =>
          match jpDigits r with
          | ([], _) => (none, r)
          | (_ :: _, r3) => (some true, r3)
        | _ => (some false, r1)
      match hasFrac with
      | none => none
      | some frac =>
        match r2 with
        | e :: r3 =>
          if e = 101 ∨ e = 69 then
            let r4 :=
              match r3 with
              | 43 :: r => r
              | 45 :: r => r
              | _ => r3
            match jpDigits r4 with
            | ([], _) => none
            | (_ :: _, r5) => some (.num neg v true, r5)
          else some (.num neg v frac, r2)
        | [] => some (.num neg v frac, r2)

mutual

/-- Recursive-descent JSON value parser (fuelled), modelling what
serde_json accepts syntactically. -/
def jpValue : Nat → Bytes → Option (Json × Bytes)
  | 0, _ => none
  | fuel + 1, l =>
    match jsonWs l with
    | [] => none
    | c :: rest =>
      if c = 110 then
        match rest with
        | 117 :: 108 :: 108 :: r => some (.null, r)
        | _ => none
      else if c = 116 then
        match rest with
        | 114 :: 117 :: 101 :: r => some (.bool true, r)
        | _ => none
      else if c = 102 then
        match rest with
        | 97 :: 108 :: 115 :: 101 :: r => some (.bool false, r)
        | _ => none
      else if c = 34 then
        match jpString (rest.length + 1) rest with
        | some (s, r) => some (.str s, r)
        | none => none
      else if c = 91 then
        match jsonWs rest with
        | 93 :: r => some (.arr [], r)
        | l2 => jpElems fuel l2
      else if c = 123 then
        match jsonWs rest with
        | 125 :: r => some (.obj [], r)
        | l2 => jpMembers fuel l2
      else if c = 45 ∨ isJsonDigit c then jpNumber (c :: rest)
      else none

/-- Array elements after `[` (at least one element). -/
def jpElems : Nat → Bytes → Option (Json × Bytes)
  | 0, _ => none
  | fuel + 1, l =>
    match jpValue fuel l with
    | none => none
    | some (v, r) =>
      match jsonWs r with
      | 44 :: r2 =>
        match jpElems fuel r2 with
        | some (.arr vs, r3) => some (.arr (v :: vs), r3)
        | _ => none
      | 93 :: r2 => some (.arr [v], r2)
      | _ => none

/-- Object members after `{` (at least one member). -/
def jpMembers : Nat → Bytes → Option (Json × Bytes)
  | 0, _ => none
  | fuel + 1, l =>
    match jsonWs l with
    | 34 :: r =>
      match jpString (r.length + 1) r with
      | none => none
      | some (k, r1) =>
        match jsonWs r1 with
        | 58 :: r2 =>
          match jpValue fuel r2 with
          | none => none
          | some (v, r3) =>
            match jsonWs r3 with
            | 44 :: r4 =>
              match jpMembers fuel r4 with
              | some (.obj ms, r5) => some (.obj ((k, v) :: ms), r5)
              | _ => none
            | 125 :: r4 => some (.obj [(k, v)], r4)
            | _ => none
        | _ => none
    | _ => none

end

/-- Model of serde_json document parsing (used by `reqwest::Response::json`):
one JSON value followed only by whitespace. -/
def jsonParse (body : Bytes) : Option Json :=
  match jpValue (body.length + 1) body with
  | some (v, rest) => if jsonWs rest = [] then some v else none
  | none => none

/- ===================== src/tracker.rs (HTTP response) ================= -/

/-- Model of `BinaryPeer { addr: IpAddr, port: u16 }` with the address
kept as its 4 source bytes. -/
structure BinaryPeerM where
  addr : Bytes
  port : Nat
  deriving DecidableEq, Repr

/-- Model of `DictionaryPeer`; the `PeerIp` discrimination between address
and hostname is kept as the raw bytes, a granularity no theorem below
depends on. -/
structure DictionaryPeerM where
  peerId : Bytes
  ip : Bytes
  port : Nat
  deriving DecidableEq, Repr

inductive PeersM
  | dictionary (ps : List DictionaryPeerM)
  | binary (ps : List BinaryPeerM)
  deriving DecidableEq, Repr

/-- Model of `TrackerResponse`. -/
structure TrackerResponseM where
  complete : Nat
  incomplete : Nat
  interval : Nat
  peers : PeersM
  deriving DecidableEq, Repr

/-- Model of `deserialize_bytes_into_binary_peer_vec` (src/tracker.rs):
reject unless the byte length is a multiple of 6, then split into 6-byte
chunks of 4 address bytes and a big-endian port. -/
def binaryPeersOfBytes (v : Bytes) : Option (List BinaryPeerM) :=
  if v.length % 6 ≠ 0 then none
  else some ((chunksOf 6 v).map fun c => ⟨c.take 4, beVal (c.drop 4)⟩)

def jlookup (ms : List (Bytes × Json)) (k : Bytes) : Option Json :=
  match ms with
  | [] => none
  | m :: ms => if m.1 = k then some m.2 else jlookup ms k

/-- A `u8` from a JSON value (for `Vec<u8>` elements). -/
def jsonU8 : Json → Option Nat
  | .num false n false => if n < 256 then some n else none
  | _ => none

/-- A non-negative integer (usize/u16 field) from a JSON value. -/
def jsonNat : Json → Option Nat
  | .num false n false => some n
  | _ => none

/-- `Vec<u8>` from JSON: an array of numbers in 0..=255. -/
def jsonByteArray : Json → Option Bytes
  | .arr xs => optionsAll (xs.map jsonU8)
  | _ => none

/-- One `DictionaryPeer` from JSON. -/
def dictPeerOfJson : Json → Option DictionaryPeerM
  | .obj ms =>
    match jlookup ms (strB "peer id"), jlookup ms (strB "ip"),
        jlookup ms (strB "port") with
    | some pid, some (.str ip), some pt =>
      match jsonByteArray pid, jsonNat pt with
      | some peerId, some port =>
        if port < 2 ^ 16 then some ⟨peerId, ip, port⟩ else none
      | _, _ => none
    | _, _, _ => none
  | _ => none

/-- The untagged `Peers` enum from JSON: the dictionary form (array of
peer objects) is tried first, then the binary form, whose
`deserialize_with` visitor receives the bytes of a JSON string and
applies the multiple-of-6 check. -/
def peersOfJson (j : Json) : Option PeersM :=
  match j with
  | .arr xs =>
    match optionsAll (xs.map dictPeerOfJson) with
    | some ps => some (.dictionary ps)
    | none => none
  | .str s =>
    match binaryPeersOfBytes s with
    | some ps => some (.binary ps)
    | none => none
  | _ => none

/-- `TrackerResponse` from JSON. -/
def trackerResponseOfJson (j : Json) : Option TrackerResponseM :=
  match j with
  | .obj ms =>
    match jlookup ms (strB "complete"), jlookup ms (strB "incomplete"),
        jlookup ms (strB "interval"), jlookup ms (strB "peers") with
    | some c, some i, some t, some p =>
      match jsonNat c, jsonNat i, jsonNat t, peersOfJson p with
      | some complete, some incomplete, some interval, some peers =>
        some ⟨complete, incomplete, interval, peers⟩
      | _, _, _, _ => none
    | _, _, _, _ => none
  | _ => none

inductive TrackerResultM
  | failure (reason : Bytes)
  | success (r : TrackerResponseM)
  deriving DecidableEq, Repr

/-- The untagged `TrackerResult` from JSON: the `Failure` variant (an
object holding `failure reason` as `Vec<u8>`) is tried first, then
`Success`. -/
def trackerResultOfJson (j : Json) : Option TrackerResultM :=
  match j with
  | .obj ms =>
    match jlookup ms (strB "failure reason") with
    | some v =>
      match jsonByteArray v with
      | some reason => some (.failure reason)
      | none =>
        match trackerResponseOfJson j with
        | some r => some (.success r)
        | none => none
    | none =>
      match trackerResponseOfJson j with
      | some r => some (.success r)
      | none => none
  | _ => none

inductive TrackerBodyOutcome
  | invalidBody
  | rejected (reason : Bytes)
  | success (r : TrackerResponseM)
  deriving DecidableEq, Repr

/-- Model of the response-body handling in `Tracker::announce_http`
(src/tracker.rs lines 111-130): the body is handed to `resp.json()`,
that is parsed as a JSON document by serde_json (NOT as bencode), with a
parse or deserialization failure mapped to
`TrackerError::InvalidBodyInTrackerResponse`; a decoded `Failure` becomes
`TrackerError::TrackerReturnedError` and a decoded `Success` is returned. -/
def trackerDecodeBody (body : Bytes) : TrackerBodyOutcome :=
  match jsonParse body with
  | none => .invalidBody
  | some j =>
    match trackerResultOfJson j with
    | none => .invalidBody
    | some (.failure reason) => .rejected reason
    | some (.success r) => .success r

/- ===================== src/tracker/udp.rs ===================== -/

inductive Endian
  | big
  | little
  deriving DecidableEq, Repr

/-- Unsigned field bytes in the given endianness. -/
def fieldBytes (e : Endian) (width v : Nat) : Bytes :=
  match e with
  | .big => beBytes width v
  | .little => leBytes width v

/-- Two-complement representation of a signed value in `bits` bits. -/
def twosComp (bits : Nat) (x : Int) : Nat := (x % (2 ^ bits : Int)).toNat

/-- Signed field bytes in the given endianness. -/
def intFieldBytes (e : Endian) (width : Nat) (x : Int) : Bytes :=
  fieldBytes e width (twosComp (8 * width) x)

/-- Model of the `Event` enum discriminants. -/
def eventNone : Int := 0
def eventCompleted : Int := 1
def eventStarted : Int := 2
def eventStopped : Int := 3

/-- Model of `TrackerAnnounceRequest` (src/tracker/udp.rs). -/
structure TrackerAnnounceRequest where
  connectionId : Int
  action : Int
  transactionId : Int
  infoHash : Bytes
  peerId : Bytes
  downloaded : Int
  left : Int
  uploaded : Int
  event : Int
  ip : Nat
  key : Nat
  numWant : Int
  port : Nat
  extensions : Nat
  deriving DecidableEq, Repr

/-- Model of `TrackerAnnounceRequest::new`: fixes `action = 1`,
`num_want = -1`, `extensions = 0` and defaults a missing ip to 0. -/
def TrackerAnnounceRequest.new (connectionId transactionId : Int)
    (infoHash peerId : Bytes) (downloaded left uploaded : Int)
    (event : Int) (ip : Option Nat) (key : Nat) (port : Nat) :
    TrackerAnnounceRequest :=
  { connectionId := connectionId
    action := 1
    transactionId := transactionId
    infoHash := infoHash
    peerId := peerId
    downloaded := downloaded
    left := left
    uploaded := uploaded
    event := event
    ip := ip.getD 0
    key := key
    numWant := -1
    port := port
    extensions := 0 }

/-- Serialization of `TrackerAnnounceRequest` by the binwrite derive:
the fields in declaration order, each multi-byte field in the endianness
binwrite was given. The source derive carries NO endianness attribute
(unlike `TrackerHandshakeRequest`, which is `#[binwrite(big)]`), and
`send_all_udp` calls `BinWrite::write`, which uses the default
`WriterOption` whose endianness is `Endian::Native`; the platform native
endianness is therefore passed in as a parameter here. -/
def announceRequestWrite (nativeEndian : Endian)
    (r : TrackerAnnounceRequest) : Bytes :=
  intFieldBytes nativeEndian 8 r.connectionId ++
  intFieldBytes nativeEndian 4 r.action ++
  intFieldBytes nativeEndian 4 r.transactionId ++
  r.infoHash ++
  r.peerId ++
  intFieldBytes nativeEndian 8 r.downloaded ++
  intFieldBytes nativeEndian 8 r.left ++
  intFieldBytes nativeEndian 8 r.uploaded ++
  intFieldBytes nativeEndian 4 r.event ++
  fieldBytes nativeEndian 4 r.ip ++
  fieldBytes nativeEndian 4 r.key ++
  intFieldBytes nativeEndian 4 r.numWant ++
  fieldBytes nativeEndian 2 r.port ++
  fieldBytes nativeEndian 2 r.extensions

/-- The 98-byte UDP announce request layout exactly as the claim and spec
state it: every multi-byte field big-endian, `action = 1`,
`downloaded = uploaded = 0`, `ip = 0`, `num_want = -1`, `extensions = 0`. -/
def specUdpAnnounceLayout (connectionId transactionId : Int)
    (infoHash peerId : Bytes) (left : Int) (event : Int) (key : Nat)
    (port : Nat) : Bytes :=
  intFieldBytes .big 8 connectionId ++
  intFieldBytes .big 4 1 ++
  intFieldBytes .big 4 transactionId ++
  infoHash ++
  peerId ++
  intFieldBytes .big 8 0 ++
  intFieldBytes .big 8 left ++
  intFieldBytes .big 8 0 ++
  intFieldBytes .big 4 event ++
  fieldBytes .big 4 0 ++
  fieldBytes .big 4 key ++
  intFieldBytes .big 4 (-1) ++
  fieldBytes .big 2 port ++
  fieldBytes .big 2 0

/- ===================== concrete inputs used by the theorems =========== -/

def c1hash : Bytes := List.replicate 20 1

def c1peer : Bytes := List.replicate 20 2

/-- A fully valid 68-byte handshake buffer holding the 19-byte protocol
name, 8 zero reserved bytes and concrete hash and peer id. -/
def c1buf : Bytes := specHandshakeLayout c1hash c1peer

/-- An info dictionary that carries a `private` key next to the four keys
the `Info` struct retains, in canonical (sorted) bencode key order. -/
def c4dict : Bencode := .dict [(strB "length", .int 1), (strB "name", .bstr (strB "a")),
  (strB "piece length", .int 1), (strB "pieces", .bstr (List.replicate 20 0)),
  (strB "private", .int 1)]

/-- The `Info` value that parsing `c4dict` produces: the `private` key is
dropped because the struct has no such field. -/
def c4info : MInfo := ⟨strB "a", 1, [List.replicate 20 0], .keyLength 1⟩

/-- A single-file info dictionary whose file length (1) is not a multiple
of the piece length (2); the single piece is a short last piece. -/
def c5dict : Bencode := .dict [(strB "length", .int 1), (strB "name", .bstr (strB "a")),
  (strB "piece length", .int 2), (strB "pieces", .bstr (List.replicate 20 0))]

def c5info : MInfo := ⟨strB "a", 2, [List.replicate 20 0], .keyLength 1⟩

/-- The canonical bencoding of the failure dictionary
`{failure reason: "end"}`, the body a rejecting tracker sends. -/
def c6body : Bytes := benSer (.dict [(strB "failure reason", .bstr (strB "end"))])

/-- The announce request `Tracker::announce_udp` builds, at concrete
argument values (downloaded 0, uploaded 0, event Started, no ip). -/
def c7req : TrackerAnnounceRequest :=
  .new 7 5 (List.replicate 20 170) (List.replicate 20 187) 0 1234 0 eventStarted none 9 8570

/- ===================== helper lemmas ===================== -/

theorem putU32_length (n : Nat) : (putU32 n).length = 4 := rfl

theorem beVal_putU32 (n : Nat) : beVal (putU32 n) = n % 2 ^ 32 := by
  simp [beVal, putU32]
  omega

theorem getU32?_append (n : Nat) (r : Bytes) :
    getU32? (putU32 n ++ r) = some (n % 2 ^ 32, r) := by
  simp [getU32?, putU32, beVal]
  omega

/-- Decoding a buffer that starts with a 4-byte big-endian length prefix
reduces to the post-prefix steps; the prefix bytes are consumed. -/
theorem peerDecode_frame (n : Nat) (p : Bytes) :
    peerDecode (putU32 n ++ p) = peerDecodeRest (n % 2 ^ 32) p := by
  unfold peerDecode
  rw [show (putU32 n ++ p).isEmpty = false from by simp [putU32]]
  rw [getU32?_append n p]
  simp

theorem peerMessageKindOfByte_none (b : Nat) (h : 8 < b) :
    peerMessageKindOfByte b = none := by
  unfold peerMessageKindOfByte
  repeat rw [if_neg (by omega)]

theorem beBytes_length (w v : Nat) : (beBytes w v).length = w := by
  induction w generalizing v with
  | zero => rfl
  | succ n ih => simp [beBytes, ih]

theorem leBytes_length (w v : Nat) : (leBytes w v).length = w := by
  induction w generalizing v with
  | zero => rfl
  | succ n ih => simp [leBytes, ih]

theorem fieldBytes_length (e : Endian) (w v : Nat) : (fieldBytes e w v).length = w := by
  cases e <;> simp [fieldBytes, beBytes_length, leBytes_length]

theorem intFieldBytes_length (e : Endian) (w : Nat) (x : Int) :
    (intFieldBytes e w x).length = w := by
  simp [intFieldBytes, fieldBytes_length]

theorem PROTOCOL_NAME_length : PROTOCOL_NAME.length = 18 := by decide

theorem protocolName19_length : protocolName19.length = 19 := by decide

/- ===================== claim theorems ===================== -/

/-- C1. The short-buffer half of the claim holds: with fewer than 68
bytes buffered, decode returns the need-more-data outcome and leaves the
buffer unchanged. The success half fails on the code: on the fully valid
68-byte handshake buffer (length byte 19, the 19-byte ASCII name
"BitTorrent protocol", 8 zero reserved bytes, hash H, peer id P) decode
returns the NoProtocolText error instead of Handshake with hash H and
peer id P, because the source constant PROTOCOL_NAME has only 18 bytes
("BitTorrentprotocol", missing the space) and a 19-byte slice never
equals it. -/
theorem c1_decode_rejects_valid :
    c1buf.length = 68 ∧
    (hsDecode c1buf).1 = .err .noProtocolText ∧
    hsDecode (List.replicate 50 7) = (.needMore, List.replicate 50 7) := by decide

/-- C2. Peer-message decode is not cursor-atomic, refuting the claim at
concrete inputs: (a) on `[0,0,0,1]` (length prefix 1, payload not yet
arrived) it returns need-more-data but has already consumed the 4 length
bytes; (b) on a 2-byte buffer (fewer than 4 bytes) it panics instead of
requesting more data; (c) a decoded Bitfield frame of declared length 2
advances the cursor by 5 bytes, not 4 + 2, leaving its payload byte in
the buffer; (d) a frame rejected for an invalid id has already advanced
the cursor by 5 bytes. -/
theorem c2_decode_not_atomic :
    peerDecode [0, 0, 0, 1] = (.needMore, []) ∧
    peerDecode [0, 0] = (.panicked, [0, 0]) ∧
    peerDecode [0, 0, 0, 2, 5, 171] = (.ok (.bitfield [171]), [171]) ∧
    peerDecode [0, 0, 0, 1, 9] = (.err (.invalidMessageId 9), []) := by decide

/-- C3. Encode/decode round-trip: for every wellformed PeerMessage value
(u32 fields and 32-bit frame lengths in range, as the Rust types
guarantee), decoding the encoded frame yields the original message back;
re-encoding the decoded message therefore reproduces the frame
byte-for-byte. This includes KeepAlive, the empty Bitfield and the empty
Piece block. -/
theorem c3_roundtrip (m : PeerMessage) (h : m.wf) :
    (peerDecode (peerEncode m)).1 = .ok m := by
  cases m with
  | keepAlive => decide
  | choke => decide
  | unchoke => decide
  | interested => decide
  | notInterested => decide
  | havePiece p =>
    have hp : p < 2 ^ 32 := h
    show (peerDecode (putU32 5 ++ 4 :: putU32 p)).1 = _
    rw [peerDecode_frame]
    simp [peerDecodeRest, peerDecodeBody, peerMessageKindOfByte,
      PeerMessageKind.msgLen, putU32, getU32?, beVal]
    omega
  | bitfield bits =>
    have hb : 1 + bits.length < 2 ^ 32 := h
    show (peerDecode (putU32 (1 + bits.length) ++ 5 :: bits)).1 = _
    rw [peerDecode_frame]
    rw [Nat.mod_eq_of_lt hb]
    simp [peerDecodeRest, peerDecodeBody, peerMessageKindOfByte,
      PeerMessageKind.msgLen]
    rw [if_neg (by omega)]
  | request i b l =>
    obtain ⟨hi, hb, hl⟩ := h
    show (peerDecode (putU32 13 ++ 6 :: (putU32 i ++ putU32 b ++ putU32 l))).1 = _
    rw [peerDecode_frame]
    simp [peerDecodeRest, peerDecodeBody, peerMessageKindOfByte,
      PeerMessageKind.msgLen, putU32, getU32?, beVal]
    omega
  | piece i b blk =>
    obtain ⟨hi, hb, hblk⟩ := h
    show (peerDecode (putU32 (9 + blk.length) ++ 7 :: (putU32 i ++ putU32 b ++ blk))).1 = _
    rw [peerDecode_frame]
    rw [Nat.mod_eq_of_lt hblk]
    simp [peerDecodeRest, peerDecodeBody, peerMessageKindOfByte,
      PeerMessageKind.msgLen, List.append_assoc, getU32?_append, putU32_length]
    rw [if_neg (by omega)]
    have h1 : i % 4294967296 = i := Nat.mod_eq_of_lt (by omega)
    have h2 : b % 4294967296 = b := Nat.mod_eq_of_lt (by omega)
    rw [h1, h2]
  | cancel i b l =>
    obtain ⟨hi, hb, hl⟩ := h
    show (peerDecode (putU32 13 ++ 8 :: (putU32 i ++ putU32 b ++ putU32 l))).1 = _
    rw [peerDecode_frame]
    simp [peerDecodeRest, peerDecodeBody, peerMessageKindOfByte,
      PeerMessageKind.msgLen, putU32, getU32?, beVal]
    omega

/-- Witness for C3 at the concrete message Piece with index 1, begin 2
and an empty block. -/
theorem c3_roundtrip_witness :
    (PeerMessage.piece 1 2 []).wf ∧
    (peerDecode (peerEncode (PeerMessage.piece 1 2 []))).1 = .ok (.piece 1 2 []) :=
  ⟨by constructor <;> decide, c3_roundtrip (.piece 1 2 []) (by constructor <;> decide)⟩

set_option maxRecDepth 10000 in
/-- C4. The info hash is NOT the SHA-1 of the canonical bencoding of the
original info dictionary: parsing a dictionary that contains a `private`
key succeeds (the key is silently ignored, the struct has no such
field), the re-serialization the hash is computed over omits `private`,
so it differs from the canonical serialization of the source dictionary
and so does the resulting SHA-1 digest. -/
theorem c4_info_hash_not_canonical :
    parseMInfo c4dict = some c4info ∧
    serInfo c4info ≠ benSer c4dict ∧
    infoHash c4info ≠ sha1 (benSer c4dict) := by decide

/-- C5, counterexample. A parsed single-file Metainfo with file length 1,
piece length 2 and one piece: total_bytes returns
piece_length * piece_count = 2, not the sum of file lengths 1. -/
theorem c5_counterexample :
    parseMInfo c5dict = some c5info ∧
    c5info.totalBytes = 2 ∧ c5info.sumFileLengths = 1 ∧
    c5info.totalBytes ≠ c5info.sumFileLengths := by decide

/-- C5, amended. `total_bytes()` returns piece_length * piece_count
rather than the sum of the file lengths; when the piece count is
`ceil(sum / piece_length)` (the piece math the spec prescribes) the
returned value is an overestimate bounded by one piece:
sum ≤ total_bytes < sum + piece_length. -/
theorem c5_amended (i : MInfo) (hpl : 0 < i.pieceLength)
    (hpieces : i.pieces.length = (i.sumFileLengths + i.pieceLength - 1) / i.pieceLength) :
    i.sumFileLengths ≤ i.totalBytes ∧ i.totalBytes < i.sumFileLengths + i.pieceLength := by
  unfold MInfo.totalBytes
  rw [hpieces]
  have hdm := Nat.div_add_mod (i.sumFileLengths + i.pieceLength - 1) i.pieceLength
  have hmlt : (i.sumFileLengths + i.pieceLength - 1) % i.pieceLength < i.pieceLength :=
    Nat.mod_lt _ hpl
  omega

/-- Witness for the amended C5 at the concrete parsed Metainfo
`c5info`. -/
theorem c5_amended_witness :
    0 < c5info.pieceLength ∧
    c5info.sumFileLengths ≤ c5info.totalBytes ∧
    c5info.totalBytes < c5info.sumFileLengths + c5info.pieceLength :=
  ⟨by decide, c5_amended c5info (by decide) (by decide)⟩

/-- C6. The HTTP announce response body is handed to `resp.json()` and
parsed as a JSON document, not as bencode: the canonical bencoded
failure dictionary `{failure reason: "end"}` (whose bytes start with
the letter d, which begins no JSON value) fails the JSON parse, so
decode surfaces InvalidBodyInTrackerResponse instead of the claimed
tracker-rejection error carrying the reason "end". -/
theorem c6_body_parsed_as_json :
    c6body = strB "d14:failure reason3:ende" ∧
    (jsonParse c6body).isNone = true ∧
    trackerDecodeBody c6body = .invalidBody := by decide

/-- C7, counterexample. The announce request struct serializes its 14
fields into 100 bytes, not 98 (the fields the claim lists sum to 100),
and because the binwrite derive carries no big-endian attribute the
emitted bytes on a little-endian host differ from the claimed
all-big-endian layout. -/
theorem c7_counterexample :
    (announceRequestWrite .big c7req).length = 100 ∧
    (announceRequestWrite .little c7req).length = 100 ∧
    announceRequestWrite .little c7req ≠
      specUdpAnnounceLayout 7 5 (List.replicate 20 170) (List.replicate 20 187)
        1234 eventStarted 9 8570 := by decide

/-- C7, amended. The UDP announce request built by
`TrackerAnnounceRequest::new` serializes connection id, action 1,
transaction id, the 20-byte info hash, the 20-byte peer id,
downloaded 0, left, uploaded 0, event, ip 0 (when absent), key,
num_want -1, port and extensions 0, in that order, totalling 100 bytes
in either endianness; the emitted bytes match the all-big-endian layout
exactly when the platform native endianness is big. -/
theorem c7_amended (e : Endian) (cid tid left ev : Int) (ih pid : Bytes)
    (ipOpt : Option Nat) (key port : Nat)
    (hih : ih.length = 20) (hpid : pid.length = 20) :
    (announceRequestWrite e
      (TrackerAnnounceRequest.new cid tid ih pid 0 left 0 ev ipOpt key port)).length = 100 ∧
    announceRequestWrite .big
        (TrackerAnnounceRequest.new cid tid ih pid 0 left 0 ev none key port) =
      specUdpAnnounceLayout cid tid ih pid left ev key port := by
  constructor
  · simp [announceRequestWrite, TrackerAnnounceRequest.new, List.length_append,
      fieldBytes_length, intFieldBytes_length, hih, hpid]
  · simp [announceRequestWrite, TrackerAnnounceRequest.new, specUdpAnnounceLayout]

/-- Witness for the amended C7 at the concrete request `c7req`. -/
theorem c7_amended_witness :
    (announceRequestWrite .little c7req).length = 100 ∧
    announceRequestWrite .big c7req =
      specUdpAnnounceLayout 7 5 (List.replicate 20 170) (List.replicate 20 187)
        1234 eventStarted 9 8570 :=
  ⟨(c7_amended .little 7 5 1234 eventStarted (List.replicate 20 170)
      (List.replicate 20 187) none 9 8570 (by decide) (by decide)).1,
   (c7_amended .big 7 5 1234 eventStarted (List.replicate 20 170)
      (List.replicate 20 187) none 9 8570 (by decide) (by decide)).2⟩

/-- C8. For every Handshake value (20-byte hash and peer id), encode
produces 67 bytes, not the claimed 68, and its output differs from the
claimed layout: the length byte 19 is followed by the 18-byte source
constant "BitTorrentprotocol" rather than the 19-byte ASCII name
"BitTorrent protocol". -/
theorem c8_encode_layout (hash peerId : Bytes)
    (hh : hash.length = 20) (hp : peerId.length = 20) :
    (hsEncode ⟨hash, peerId⟩).length = 67 ∧
    hsEncode ⟨hash, peerId⟩ ≠ specHandshakeLayout hash peerId := by
  have h1 : (hsEncode ⟨hash, peerId⟩).length = 67 := by
    simp [hsEncode, List.length_append, PROTOCOL_NAME_length, hh, hp]
  refine ⟨h1, fun heq => ?_⟩
  have h2 := congrArg List.length heq
  rw [h1] at h2
  have h3 : (specHandshakeLayout hash peerId).length = 68 := by
    simp [specHandshakeLayout, List.length_append, protocolName19_length, hh, hp]
  omega

/-- Witness for C8 at concrete hash and peer id values. -/
theorem c8_encode_layout_witness :
    (hsEncode ⟨List.replicate 20 0, List.replicate 20 1⟩).length = 67 ∧
    hsEncode ⟨List.replicate 20 0, List.replicate 20 1⟩ ≠
      specHandshakeLayout (List.replicate 20 0) (List.replicate 20 1) :=
  c8_encode_layout (List.replicate 20 0) (List.replicate 20 1) (by decide) (by decide)

/-- C9. Once a full frame is buffered (a 4-byte length prefix, an id
byte and at least length - 1 further bytes), decode rejects an id above
8 with the invalid-message-id error carrying the offending byte, and
rejects the fixed-length kinds Choke/Unchoke/Interested/NotInterested
(ids 0-3, required length 1), Have (id 4, required length 5) and
Request/Cancel (ids 6 and 8, required length 13) with the
incorrect-message-length error carrying the declared length whenever the
declared length differs from the constant. -/
theorem c9_reject (len id : Nat) (rest : Bytes)
    (hlen0 : len ≠ 0) (hlen32 : len < 2 ^ 32) (hbuf : len ≤ rest.length + 1)
    (hid : id < 256) :
    (8 < id →
      peerDecode (putU32 len ++ id :: rest) = (.err (.invalidMessageId id), rest)) ∧
    (id ≤ 3 → len ≠ 1 →
      peerDecode (putU32 len ++ id :: rest) = (.err (.incorrectMessageLen len), rest)) ∧
    (id = 4 → len ≠ 5 →
      peerDecode (putU32 len ++ id :: rest) = (.err (.incorrectMessageLen len), rest)) ∧
    ((id = 6 ∨ id = 8) → len ≠ 13 →
      peerDecode (putU32 len ++ id :: rest) = (.err (.incorrectMessageLen len), rest)) := by
  rw [peerDecode_frame, Nat.mod_eq_of_lt hlen32]
  refine ⟨fun hgt => ?_, fun hle hne => ?_, fun heq hne => ?_, fun heq hne => ?_⟩
  · simp [peerDecodeRest, if_neg hlen0, peerMessageKindOfByte_none id hgt]
    omega
  · interval_cases id <;>
      simp [peerDecodeRest, peerMessageKindOfByte, PeerMessageKind.msgLen,
        hlen0, hne] <;> omega
  · subst heq
    simp [peerDecodeRest, peerMessageKindOfByte, PeerMessageKind.msgLen,
      hlen0, hne]
    omega
  · rcases heq with heq | heq <;> subst heq <;>
      simp [peerDecodeRest, peerMessageKindOfByte, PeerMessageKind.msgLen,
        hlen0, hne] <;> omega

/-- Witness for C9: a frame with id 9 is rejected with the
invalid-message-id error, and a Have frame with declared length 6 is
rejected with the incorrect-message-length error. -/
theorem c9_reject_witness :
    peerDecode (putU32 5 ++ 9 :: [0, 0, 0, 0]) = (.err (.invalidMessageId 9), [0, 0, 0, 0]) ∧
    peerDecode (putU32 6 ++ 4 :: [0, 0, 0, 0, 0]) = (.err (.incorrectMessageLen 6), [0, 0, 0, 0, 0]) :=
  ⟨(c9_reject 5 9 [0, 0, 0, 0] (by decide) (by decide) (by decide) (by decide)).1 (by decide),
   (c9_reject 6 4 [0, 0, 0, 0, 0] (by decide) (by decide) (by decide) (by decide)).2.2.1 rfl (by decide)⟩

/-- C10. Peer-message decode is NOT total: it panics on buffers of 1 and
3 bytes (the source checks only that at least one byte is present before
`get_u32`), and on fully buffered Piece frames of declared length 1 and
8, where either a `get_u32` overruns or the body size computation
`length - 9` underflows. -/
theorem c10_decode_panics :
    (peerDecode [0]).1 = .panicked ∧
    (peerDecode [0, 0, 0]).1 = .panicked ∧
    (peerDecode (putU32 1 ++ 7 :: List.replicate 8 0)).1 = .panicked ∧
    (peerDecode (putU32 8 ++ 7 :: List.replicate 8 0)).1 = .panicked := by decide

end Torrant
